import Mathlib

/-!
Verification development for the service-token authentication core of the
`external-service-crm-backend` repository.  Each definition is a shallow
embedding of a source function; the source file and symbol are named in the
doc comment of every definition.  JavaScript truthiness is modelled
explicitly: an optional string is truthy iff it is present and non-empty, an
optional number is truthy iff it is present and non-zero.
-/

namespace CrmAuth

/-- Does list `l` start with `pat`?  (list-level model of a JavaScript
string comparison at one position). -/
def startsWithL : List Char → List Char → Bool
  | [], _ => true
  | _ :: _, [] => false
  | p :: ps, c :: cs => p = c && startsWithL ps cs

/-- Does `pat` occur contiguously inside `l`?  This is the semantics of
JavaScript `String.prototype.includes`. -/
def occursInL (pat : List Char) : List Char → Bool
  | [] => startsWithL pat []
  | c :: cs => startsWithL pat (c :: cs) || occursInL pat cs

/-- Models the JavaScript expression `s.includes(pat)`. -/
def jsIncludes (s pat : String) : Bool :=
  occursInL pat.toList s.toList

/-- Removes the first occurrence of `pat` from `l`; this is the semantics
of the JavaScript `replace` method with a plain string pattern and an empty
replacement (only the first occurrence is replaced). -/
def removeFirstOccL (pat : List Char) : List Char → List Char
  | [] => []
  | c :: cs =>
    if startsWithL pat (c :: cs) then (c :: cs).drop pat.length
    else c :: removeFirstOccL pat cs

/-- Failure of the extraction layer (`HttpException` with status 401 and
message "Service token is required" in the source). -/
inductive ExtractError where
  | missingToken
deriving DecidableEq, Repr

/-- Embeds `extractServiceToken` (src/unnamed/part_008, lines 9-17): read
the authorization header; when it is falsy return null; otherwise remove
the first occurrence of the Bearer prefix (a plain-string `replace` with an
empty replacement) and return the result, or null when it is empty.  The
request is abstracted to its `authorization` header; `none` stands for a
missing header.  A present-but-empty header is falsy in JavaScript, hence
the `h = ""` test. -/
def extractServiceToken (authHeader : Option String) : Option String :=
  match authHeader with
  | none => none
  | some h =>
    if h = "" then none
    else
      let token := String.mk (removeFirstOccL "Bearer ".toList h.toList)
      if token = "" then none else some token

/-- Embeds `requireServiceToken` (src/unnamed/part_008, lines 25-34): wraps
`extractServiceToken` and throws when the token is absent.  (`extract` never
returns an empty string, so `if (!token)` coincides with the `none` case.) -/
def requireServiceToken (authHeader : Option String) : Except ExtractError String :=
  match extractServiceToken authHeader with
  | some t => Except.ok t
  | none => Except.error ExtractError.missingToken

/-- Decoded claims of a service token, per the `JwtPayload` interface of
src/src/auth/jwt.strategy.ts (the optional `iat`/`exp` claims are consumed
by the passport layer before `validate` runs and are omitted here). -/
structure JwtPayload where
  sub : Int
  email : String
  role : String
  type : String
  service : Option String
deriving DecidableEq, Repr

/-- The object `JwtStrategy.validate` returns on success (same five fields,
src/src/auth/jwt.strategy.ts lines 96-102). -/
structure Principal where
  sub : Int
  email : String
  role : String
  type : String
  service : Option String
deriving DecidableEq, Repr

/-- Validation failures.  `wrongType` is the `UnauthorizedException`
"Invalid token type"; `serviceMismatch` covers both service-name rejections;
`signatureInvalid` stands for the passport RS256 verification failing before
`validate` is ever called. -/
inductive AuthError where
  | signatureInvalid
  | wrongType
  | serviceMismatch
deriving DecidableEq, Repr

/-- Truthiness of a JavaScript `string | undefined` value. -/
def truthyS : Option String → Bool
  | some s => s ≠ ""
  | none => false

/-- Truthiness of a JavaScript `number | undefined` value. -/
def truthyI : Option Int → Bool
  | some i => i ≠ 0
  | none => false

/-- The principal built from a payload on successful validation. -/
def mkPrincipal (p : JwtPayload) : Principal :=
  ⟨p.sub, p.email, p.role, p.type, p.service⟩

/-- Embeds `JwtStrategy.validate` (src/src/auth/jwt.strategy.ts, lines
45-103).  `cfg` is the SERVICE_NAME configuration value.  Checks in source
order: a `payload.type` differing from the literal service throws; then,
when both the configured
name and `payload.service` are truthy, accept on exact match or when either
string `includes` the other, else throw; when the configured name is truthy
but `payload.service` is not, throw; otherwise fall through and return the
principal. -/
def validate (cfg : Option String) (p : JwtPayload) : Except AuthError Principal :=
  if p.type ≠ "service" then Except.error AuthError.wrongType
  else if truthyS cfg && truthyS p.service then
    let e := cfg.getD ""
    let c := p.service.getD ""
    if c = e then Except.ok (mkPrincipal p)
    else if jsIncludes c e || jsIncludes e c then Except.ok (mkPrincipal p)
    else Except.error AuthError.serviceMismatch
  else if truthyS cfg then Except.error AuthError.serviceMismatch
  else Except.ok (mkPrincipal p)

/-- Embeds the full per-request validation pipeline: passport verifies the
RS256 signature before calling `JwtStrategy.validate` (jwt.strategy.ts lines
27-42); the resulting user object then passes through
`JwtAuthGuard.handleRequest` (src/unnamed/part_009, lines 33-60), which
re-throws errors, rejects a missing user and re-checks that `user.type`
equals the literal service.  `sigOk` abstracts the outcome of the RS256
signature verification. -/
def authenticate (cfg : Option String) (sigOk : Bool) (p : JwtPayload) :
    Except AuthError Principal :=
  match (if sigOk then validate cfg p else Except.error AuthError.signatureInvalid) with
  | Except.error e => Except.error e
  | Except.ok u =>
    if u.type ≠ "service" then Except.error AuthError.wrongType else Except.ok u

/-- Whitespace characters relevant to the regexes in
`JwtConfigService._loadPublicKey` (`\s` restricted to the characters a PEM
string can actually contain). -/
def isWsC (c : Char) : Bool :=
  c = ' ' || c = '\t' || c = '\n' || c = '\r'

/-- The double-quote character (written numerically). -/
def dquoteC : Char := Char.ofNat 34

/-- The single-quote character (written numerically). -/
def squoteC : Char := Char.ofNat 39

/-- Drop one leading single or double quote if present. -/
def dropLeadQuote : List Char → List Char
  | [] => []
  | c :: rest => if c = dquoteC || c = squoteC then rest else c :: rest

/-- Removal of surrounding quotes (analytics-event.dto.ts line 91, a global
regex alternating an anchored leading and an anchored trailing single or
double quote, replaced by nothing): one quote on each side is removed. -/
def stripQuotes (l : List Char) : List Char :=
  ((dropLeadQuote l).reverse |> dropLeadQuote).reverse

/-- Models JavaScript `String.prototype.trim`. -/
def trimBoth (l : List Char) : List Char :=
  ((l.dropWhile isWsC).reverse.dropWhile isWsC).reverse

/-- The PEM header literal. -/
def headerL : List Char := "-----BEGIN PUBLIC KEY-----".toList

/-- The PEM footer literal. -/
def footerL : List Char := "-----END PUBLIC KEY-----".toList

/-- The first `.replace` of line 99 (regex: header followed by `\s*`,
replacement: header followed by a newline): at the first occurrence of the
header, the header plus the whitespace following it is replaced by the
header plus one newline. -/
def replaceHeader : List Char → List Char
  | [] => []
  | c :: cs =>
    if startsWithL headerL (c :: cs) then
      headerL ++ '\n' :: ((c :: cs).drop headerL.length).dropWhile isWsC
    else c :: replaceHeader cs

/-- The second `.replace` of line 100 (regex: `\s*` followed by the footer,
replacement: a newline followed by the footer): at the leftmost position
where optional whitespace is immediately followed by the footer, that
whitespace plus the footer is replaced by one newline plus the footer. -/
def replaceFooter : List Char → List Char
  | [] => []
  | c :: cs =>
    if startsWithL footerL ((c :: cs).dropWhile isWsC) then
      '\n' :: (footerL ++ ((c :: cs).dropWhile isWsC).drop footerL.length)
    else c :: replaceFooter cs

/-- Fuelled worker for `chunk64` (fuel bounds the number of chunks; the
entry point passes the list length, which always suffices). -/
def chunk64Aux : Nat → List Char → List Char
  | 0, l => l
  | fuel + 1, l =>
    if l.length < 64 then l
    else (l.take 64) ++ '\n' :: chunk64Aux fuel (l.drop 64)

/-- One newline-free run chunked by the third `.replace` of line 102 (regex:
any 64 characters, replacement: the group followed by a newline): a newline
is appended after every full group of 64 characters. -/
def chunk64 (l : List Char) : List Char :=
  chunk64Aux l.length l

/-- Split on newline characters, keeping empty segments. -/
def splitNl : List Char → List (List Char)
  | [] => [[]]
  | c :: cs =>
    if c = '\n' then [] :: splitNl cs
    else
      match splitNl cs with
      | h :: t => (c :: h) :: t
      | [] => [[c]]

/-- Re-join segments with newlines (inverse of `splitNl`). -/
def joinNl : List (List Char) → List Char
  | [] => []
  | [x] => x
  | x :: y :: t => x ++ '\n' :: joinNl (y :: t)

/-- The 64-character wrap applied to the whole string: the regex dot does
not match a newline, so each maximal newline-free run is chunked
independently. -/
def wrap64 (l : List Char) : List Char :=
  joinNl ((splitNl l).map chunk64)

/-- Fuelled worker for `collapseNl`. -/
def collapseNlAux : Nat → List Char → List Char
  | 0, l => l
  | _ + 1, [] => []
  | _ + 1, [c] => [c]
  | fuel + 1, a :: b :: rest =>
    if a = '\n' && b = '\n' then collapseNlAux fuel ('\n' :: rest)
    else a :: collapseNlAux fuel (b :: rest)

/-- The `.replace` of line 107 (regex: two or more newlines, global,
replacement: one newline): runs of two or more newlines collapse to one. -/
def collapseNl (l : List Char) : List Char :=
  collapseNlAux l.length l

/-- Is this suffix position an end of line (`$` with the `m` flag)? -/
def lineEndB : List Char → Bool
  | [] => true
  | c :: _ => c = '\n'

/-- Largest `j ≤ fuel` such that dropping `j` characters lands on an end of
line: the greedy backtracking of `\s+` inside `/\s+$/gm`. -/
def bestTrailAux (l : List Char) : Nat → Option Nat
  | 0 => none
  | j + 1 => if lineEndB (l.drop (j + 1)) then some (j + 1) else bestTrailAux l j

/-- The per-line trailing-whitespace strip of line 108 (regex: one or more
whitespace characters anchored at an end of line, global and multiline,
replaced by nothing): scan left to right; at a whitespace character, remove
the longest whitespace run from here whose end abuts an end of line, then
continue scanning after it; fuel equals the remaining length, which
suffices since every removal is non-empty. -/
def stripTrailWsAux : Nat → List Char → List Char
  | 0, l => l
  | _ + 1, [] => []
  | fuel + 1, c :: cs =>
    if isWsC c then
      match bestTrailAux (c :: cs) ((c :: cs).takeWhile isWsC).length with
      | some j => stripTrailWsAux fuel ((c :: cs).drop j)
      | none => c :: stripTrailWsAux fuel cs
    else c :: stripTrailWsAux fuel cs

/-- Entry point for the per-line trailing-whitespace strip. -/
def stripTrailWs (l : List Char) : List Char :=
  stripTrailWsAux l.length l

/-- The single-line branch of the normalization (lines 96-103): ensure a
newline after the header and before the footer, then wrap at 64 characters. -/
def pemSingleLine (l : List Char) : List Char :=
  wrap64 (replaceFooter (replaceHeader l))

/-- Embeds the normalization of a pre-provisioned `JWT_PUBLIC_KEY`
(`JwtConfigService._loadPublicKey`, src/src/dto/analytics-event.dto.ts lines
88-112): strip one surrounding quote on each side, trim; if the value has no
newline, ensure header/footer newlines and wrap at 64-character lines;
collapse runs of newlines, strip per-line trailing whitespace, trim. -/
def normalizeKey (s : String) : String :=
  let l0 := trimBoth (stripQuotes s.toList)
  let l1 := if l0.contains '\n' then l0 else pemSingleLine l0
  String.mk (trimBoth (stripTrailWs (collapseNl l1)))

/-- State of `PublicKeyService` (src/unnamed/part_006): the cached key and
the timestamp of the last successful fetch (milliseconds; initially 0). -/
structure PKState where
  cachedPublicKey : Option String
  lastFetchTime : Nat
deriving DecidableEq, Repr

/-- Models `PublicKeyService.cacheTimeout = 3600000` (1 hour). -/
def cacheTimeout : Nat := 3600000

/-- The fetch part of `PublicKeyService.getPublicKey` (part_006, lines
27-55): check `MAIN_SERVER_URL`, perform the HTTP fetch (`fetchResult` is
`some key` when the server answers with a well-formed
`data.data.publicKey`, `none` on a network error or malformed response),
cache on success.  The returned `Bool` records whether an outbound fetch was
performed. -/
def getPublicKeyFetch (urlConfigured : Bool) (now : Nat) (fetchResult : Option String)
    (s : PKState) : Except String String × PKState × Bool :=
  if urlConfigured then
    match fetchResult with
    | some k => (Except.ok k, { cachedPublicKey := some k, lastFetchTime := now }, true)
    | none => (Except.error "Failed to fetch public key from main server", s, true)
  else (Except.error "MAIN_SERVER_URL is not configured", s, false)

/-- Embeds `PublicKeyService.getPublicKey` (part_006, lines 18-55): return
the cached key when it is present and younger than `cacheTimeout`,
otherwise fetch.  (`Date.now() - lastFetchTime` is modelled with truncated
subtraction, which agrees with the JavaScript comparison since the timeout
is positive.) -/
def getPublicKey (urlConfigured : Bool) (now : Nat) (fetchResult : Option String)
    (s : PKState) : Except String String × PKState × Bool :=
  match s.cachedPublicKey with
  | some k =>
    if now - s.lastFetchTime < cacheTimeout then (Except.ok k, s, false)
    else getPublicKeyFetch urlConfigured now fetchResult s
  | none => getPublicKeyFetch urlConfigured now fetchResult s

/-- State of `JwtConfigService` (analytics-event.dto.ts): its own cached
`publicKey`, which has no TTL. -/
structure JCState where
  publicKey : Option String
deriving DecidableEq, Repr

/-- The server branch of `JwtConfigService._loadPublicKey` (line 117):
delegate to `PublicKeyService.getPublicKey` and cache the result in the
`JwtConfigService` state. -/
def loadFromServer (urlConfigured : Bool) (now : Nat) (fetchResult : Option String)
    (jc : JCState) (pk : PKState) : Except String String × JCState × PKState × Bool :=
  match getPublicKey urlConfigured now fetchResult pk with
  | (Except.ok k, pk2, f) => (Except.ok k, JCState.mk (some k), pk2, f)
  | (Except.error e, pk2, f) => (Except.error e, jc, pk2, f)

/-- Sequential embedding of `JwtConfigService.loadPublicKey` followed by
`_loadPublicKey` (analytics-event.dto.ts lines 64-127), the path every token
validation takes through `secretOrKeyProvider` (jwt.strategy.ts line 33):
return the `JwtConfigService` cache if set (no TTL check, no fetch);
otherwise, if `JWT_PUBLIC_KEY` is configured (truthy), normalize it and
cache it (no fetch); otherwise load through `PublicKeyService`.  The single
in-flight-promise deduplication is modelled separately for claim C1; this
definition is the one-caller-at-a-time behaviour. -/
def loadPublicKeySeq (envKey : Option String) (urlConfigured : Bool) (now : Nat)
    (jc : JCState) (pk : PKState) (fetchResult : Option String) :
    Except String String × JCState × PKState × Bool :=
  match jc.publicKey with
  | some k => (Except.ok k, jc, pk, false)
  | none =>
    match envKey with
    | some ek =>
      if ek ≠ "" then
        (Except.ok (normalizeKey ek), JCState.mk (some (normalizeKey ek)), pk, false)
      else loadFromServer urlConfigured now fetchResult jc pk
    | none => loadFromServer urlConfigured now fetchResult jc pk

/-- 64 characters of base64-like body, for concrete normalization checks. -/
def a64 : String := "AAAAAAAAAAAAAAAAAAAAAAAAAAAAAAAAAAAAAAAAAAAAAAAAAAAAAAAAAAAAAAAA"

/-- The fields of the remote user profile consulted by
`UserContextService.getUserLogin` (src/unnamed/part_000, lines 33-40);
every field is optional and may also be present-but-empty. -/
structure ProfileData where
  userLogin : Option String
  login : Option String
  username : Option String
  email : Option String
  id : Option Int
deriving DecidableEq, Repr

/-- The `MainServerResponse` wrapper returned by
`MainServerClientService.getUserProfile` (part_006): an HTTP status and an
optional body. -/
structure MainResp where
  status : Nat
  data : Option ProfileData
deriving DecidableEq, Repr

/-- First truthy element of a list of JavaScript string options — the value
of an `a || b || c || ... || null` chain. -/
def firstTruthyS : List (Option String) → Option String
  | [] => none
  | o :: rest => if truthyS o then o else firstTruthyS rest

/-- The login-candidate chain of part_000 lines 35-40:
`userData.userLogin || userData.login || userData.username ||
userData.email || userData.id?.toString() || null`. -/
def profileLogin (d : ProfileData) : Option String :=
  firstTruthyS [d.userLogin, d.login, d.username, d.email, d.id.map (fun i => toString i)]

/-- Lookup in the `userLoginCache` map (`Map<number, string>`). -/
def mapGet (m : List (Int × String)) (k : Int) : Option String :=
  (m.find? (fun p => p.1 == k)).map Prod.snd

/-- Insertion into the `userLoginCache` map (replaces any existing
binding). -/
def mapSet (m : List (Int × String)) (k : Int) (v : String) : List (Int × String) :=
  (k, v) :: m.filter (fun p => p.1 != k)

/-- Embeds `UserContextService.getUserLogin` (src/unnamed/part_000, lines
17-64).  `fetched` is the outcome of
`mainServerClient.getUserProfile(serviceToken)`: `none` when the call
throws, `some resp` otherwise.  Returns the resolved login (`none` models
the `return null` failure), the updated cache and whether a remote profile
fetch was performed.  Mirrors the source: cache hit requires a truthy
`userId` and a truthy cached value; a successful profile requires status
200, a body, a truthy login candidate and a truthy `userData.id`, and
caches under `userData.id` (not under the `userId` argument); the email
fallback caches under `userId` only when `userId` is truthy. -/
def getUserLogin (cache : List (Int × String)) (serviceToken : String)
    (userId : Option Int) (email : Option String) (fetched : Option MainResp) :
    Option String × List (Int × String) × Bool :=
  let hit : Option String :=
    match userId with
    | some u =>
      if u ≠ 0 then
        match mapGet cache u with
        | some c => if c ≠ "" then some c else none
        | none => none
      else none
    | none => none
  match hit with
  | some c => (some c, cache, false)
  | none =>
    let afterTry : Option (String × List (Int × String)) :=
      match fetched with
      | some resp =>
        if resp.status = 200 then
          match resp.data with
          | some d =>
            match profileLogin d with
            | some l =>
              match d.id with
              | some pid => if pid ≠ 0 then some (l, mapSet cache pid l) else none
              | none => none
            | none => none
          | none => none
        else none
      | none => none
    match afterTry with
    | some lc => (some lc.1, lc.2, true)
    | none =>
      match email with
      | some m =>
        if m ≠ "" then
          (some m,
            (match userId with
             | some u => if u ≠ 0 then mapSet cache u m else cache
             | none => cache),
            true)
        else (none, cache, true)
      | none => (none, cache, true)

/-- The inner payload of the SSO exchange response
(`response.data.data`, src/unnamed/part_010 lines 163-164). -/
structure ExchangeData where
  serviceToken : String
  userId : Int
  serviceName : String
deriving DecidableEq, Repr

/-- The body of the issuer HTTP response to
`POST {MAIN_SERVER_URL}/auth/sso/exchange`. -/
structure ExchangeRespBody where
  data : Option ExchangeData
deriving DecidableEq, Repr

/-- The value `AuthService.handleCallback` resolves with (part_010 lines
177-181). -/
structure ExchangeResult where
  serviceToken : String
  userId : Int
  serviceName : String
deriving DecidableEq, Repr

/-- Embeds `AuthService.handleCallback` (src/unnamed/part_010, lines
110-252) together with `MainServerClientService.setToken` (part_006):
`clientToken` is the process-wide `serviceToken` field of the
`MainServerClientService` singleton before the call; `resp` is the
issuer response (`none` for a network/HTTP error, which makes the method
throw).
On a response whose `data.data.serviceToken` is truthy, the method calls
`this.mainServerClient.setToken(serviceToken)` (line 172) and resolves with
the exchange result; on any failure it throws and leaves the stored token
unchanged.  (The URL-decoding of `redirectUri` at lines 120-131 only shapes
the outbound request payload and does not affect the result mapping.)
Returns the resolved result (`none` = throw) and the client token state
after the call. -/
def handleCallback (clientToken : Option String) (code redirectUri : String)
    (resp : Option ExchangeRespBody) : Option ExchangeResult × Option String :=
  match resp with
  | none => (none, clientToken)
  | some r =>
    match r.data with
    | some d =>
      if d.serviceToken ≠ "" then
        (some ⟨d.serviceToken, d.userId, d.serviceName⟩, some d.serviceToken)
      else (none, clientToken)
    | none => (none, clientToken)

/-- Status of one concurrent caller of `JwtConfigService.loadPublicKey`:
not yet started, suspended awaiting the shared loading promise, or returned
with a key. -/
inductive CStatus where
  | idle
  | waiting
  | done (k : String)
deriving DecidableEq

/-- Shared state of the key store under concurrent `loadPublicKey` calls
(analytics-event.dto.ts lines 45-46 and part_006): `publicKey` is the
`JwtConfigService` cache, `loading` records whether `loadingPromise` is
non-null (a fetch is in flight), `fetchCount` counts outbound key fetches
started so far, and `callers` gives the status of each caller. -/
structure KState where
  publicKey : Option String
  loading : Bool
  fetchCount : Nat
  callers : Nat → CStatus

/-- Initial state for a burst of concurrent callers with no cached key. -/
def initK : KState :=
  { publicKey := none, loading := false, fetchCount := 0, callers := fun _ => CStatus.idle }

/-- One event-loop step of the concurrent execution of
`JwtConfigService.loadPublicKey` (lines 64-82) over
`PublicKeyService.getPublicKey`, for a run in which the fetch succeeds with
key `kVal` and no `JWT_PUBLIC_KEY` is configured.  JavaScript runs each
caller synchronously up to its first `await`, so each constructor is one
atomic segment:
* `startHit`: lines 65-67 — the cache is set, return it at once;
* `startAwait`: lines 70-72 — a load is in flight, await `loadingPromise`;
* `startFetch`: lines 75 and 117 — set `loadingPromise`, run
  `_loadPublicKey` synchronously into `PublicKeyService.getPublicKey`,
  which starts the one outbound HTTP fetch and suspends;
* `resolve`: the fetch response arrives — `_loadPublicKey` stores the key
  (line 117 rsp. 77) and the promise settles (the `finally` of line 80
  clears `loadingPromise`);
* `wake`: one suspended caller resumes and returns the published key. -/
inductive KStep (kVal : String) : KState → KState → Prop
  | startHit (s : KState) (i : Nat) (k : String) :
      s.callers i = CStatus.idle → s.publicKey = some k →
      KStep kVal s { s with callers := Function.update s.callers i (CStatus.done k) }
  | startAwait (s : KState) (i : Nat) :
      s.callers i = CStatus.idle → s.publicKey = none → s.loading = true →
      KStep kVal s { s with callers := Function.update s.callers i CStatus.waiting }
  | startFetch (s : KState) (i : Nat) :
      s.callers i = CStatus.idle → s.publicKey = none → s.loading = false →
      KStep kVal s { s with loading := true, fetchCount := s.fetchCount + 1,
                            callers := Function.update s.callers i CStatus.waiting }
  | resolve (s : KState) :
      s.loading = true →
      KStep kVal s { s with loading := false, publicKey := some kVal }
  | wake (s : KState) (i : Nat) (k : String) :
      s.callers i = CStatus.waiting → s.publicKey = some k →
      KStep kVal s { s with callers := Function.update s.callers i (CStatus.done k) }

/-- States reachable from `initK` under any interleaving of callers. -/
inductive KReach (kVal : String) : KState → Prop
  | init : KReach kVal initK
  | step {s t : KState} : KReach kVal s → KStep kVal s t → KReach kVal t

/-- Inductive invariant for the single-flight argument. -/
def KInv (kVal : String) (s : KState) : Prop :=
  (s.publicKey = none ∨ s.publicKey = some kVal)
  ∧ (s.loading = true → s.publicKey = none)
  ∧ (s.fetchCount = if (s.loading = true ∨ ¬ s.publicKey = none) then 1 else 0)
  ∧ (∀ i k, s.callers i = CStatus.done k → (k = kVal ∧ s.publicKey = some kVal))

end CrmAuth

set_option maxRecDepth 10000

namespace CrmAuth

-- Theorems

theorem strMk_toList (s : String) : String.mk s.toList = s := by
  cases s; rfl

theorem toList_append (a b : String) : (a ++ b).toList = a.toList ++ b.toList := by
  cases a; cases b; rfl

theorem startsWithL_append (pat rest : List Char) : startsWithL pat (pat ++ rest) = true := by
  induction pat with
  | nil => rfl
  | cons p ps ih => simp [startsWithL, ih]

theorem removeFirstOccL_append (pat rest : List Char) (hp : pat ≠ []) :
    removeFirstOccL pat (pat ++ rest) = rest := by
  match pat with
  | [] => exact absurd rfl hp
  | p :: ps =>
    show removeFirstOccL (p :: ps) (p :: (ps ++ rest)) = rest
    rw [removeFirstOccL]
    rw [show p :: (ps ++ rest) = (p :: ps) ++ rest from rfl]
    rw [startsWithL_append]
    simp

theorem removeFirstOccL_of_not_occurs (pat l : List Char) (h : occursInL pat l = false) :
    removeFirstOccL pat l = l := by
  induction l with
  | nil => rfl
  | cons c cs ih =>
    rw [occursInL, Bool.or_eq_false_iff] at h
    rw [removeFirstOccL, if_neg (by simp [h.1]), ih h.2]

/-- Claim C6 fails on the code, and this is the statement that holds instead:
`extractServiceToken` removes the first occurrence of the substring
`"Bearer "` from the header and returns the remainder verbatim (no
whitespace trimming), returning `none` only when the header is missing or
empty or the remainder is empty; in particular a header that does not
contain `"Bearer "` at all is returned unchanged rather than rejected.
`requireServiceToken` returns exactly the value of `extractServiceToken`
and fails with `missingToken` precisely when it is `none`; on header
`Bearer abc123` it returns `abc123`, and with no header it fails. -/
theorem extract_require_contract :
    (∀ t : String, t ≠ "" → extractServiceToken (some ("Bearer " ++ t)) = some t)
    ∧ (∀ h t, extractServiceToken h = some t ↔ requireServiceToken h = Except.ok t)
    ∧ (∀ h, extractServiceToken h = none ↔
        requireServiceToken h = Except.error ExtractError.missingToken)
    ∧ extractServiceToken none = none
    ∧ (∀ h : String, h ≠ "" → jsIncludes h "Bearer " = false →
        extractServiceToken (some h) = some h) := by
  refine ⟨?_, ?_, ?_, rfl, ?_⟩
  · intro t ht
    have hne : ("Bearer " ++ t : String) ≠ "" := by
      intro hc
      have : ("Bearer " ++ t).toList = ("" : String).toList := by rw [hc]
      rw [toList_append] at this
      simp at this
    rw [extractServiceToken, if_neg hne]
    rw [toList_append]
    rw [removeFirstOccL_append _ _ (by decide), strMk_toList]
    simp [ht]
  · intro h t
    rw [requireServiceToken]
    cases hx : extractServiceToken h <;> simp
  · intro h
    rw [requireServiceToken]
    cases hx : extractServiceToken h <;> simp
  · intro h hne hocc
    rw [extractServiceToken, if_neg hne]
    rw [jsIncludes] at hocc
    rw [removeFirstOccL_of_not_occurs _ _ hocc, strMk_toList]
    simp [hne]

/-- Witness for `extract_require_contract` at the concrete inputs of the
claim: header `Bearer abc123` yields `abc123`, a missing header fails with
`missingToken`. -/
theorem extract_require_contract_witness :
    extractServiceToken (some ("Bearer " ++ "abc123")) = some "abc123"
    ∧ requireServiceToken none = Except.error ExtractError.missingToken :=
  ⟨extract_require_contract.1 "abc123" (by decide),
   (extract_require_contract.2.2.1 none).mp extract_require_contract.2.2.2.1⟩

/-- Claim C6 as frozen is false on the code: the header `Token xyz` is
malformed (not of the form `Bearer <token>`), so the claim requires
`extract` to return `none`, but the code returns the header unchanged
because the plain-string `replace` finds no occurrence to remove. -/
theorem extract_malformed_not_none :
    extractServiceToken (some "Token xyz") = some "Token xyz"
    ∧ (some "Token xyz" : Option String) ≠ none := by
  exact ⟨by decide, by decide⟩

/-- Claim C10: `extractServiceToken` never yields the empty string; a header
whose value reduces to the empty string after removing `"Bearer "` (such as
a header that is exactly `"Bearer "`) yields `none`, and
`requireServiceToken` fails exactly as if the token were absent; every
token returned by `requireServiceToken` is non-empty. -/
theorem extract_never_empty :
    (∀ h s, extractServiceToken h = some s → s ≠ "")
    ∧ (∀ h t, requireServiceToken h = Except.ok t → t ≠ "")
    ∧ (∀ h : String, String.mk (removeFirstOccL "Bearer ".toList h.toList) = "" →
        extractServiceToken (some h) = none
        ∧ requireServiceToken (some h) = Except.error ExtractError.missingToken) := by
  have hx : ∀ h s, extractServiceToken h = some s → s ≠ "" := by
    intro h s hs
    match h with
    | none => simp [extractServiceToken] at hs
    | some v =>
      rw [extractServiceToken] at hs
      by_cases hv : v = ""
      · rw [if_pos hv] at hs; exact absurd hs (by simp)
      · rw [if_neg hv] at hs
        by_cases ht : String.mk (removeFirstOccL "Bearer ".toList v.toList) = ""
        · rw [if_pos ht] at hs; exact absurd hs (by simp)
        · rw [if_neg ht] at hs
          have := Option.some.inj hs
          rw [← this]; exact ht
  refine ⟨hx, ?_, ?_⟩
  · intro h t ht
    rw [requireServiceToken] at ht
    cases hy : extractServiceToken h with
    | none => rw [hy] at ht; exact absurd ht (by simp)
    | some v =>
      rw [hy] at ht
      have hv := Except.ok.inj ht
      rw [← hv]; exact hx h v hy
  · intro h hred
    by_cases hv : h = ""
    · subst hv
      refine ⟨rfl, rfl⟩
    · have he : extractServiceToken (some h) = none := by
        rw [extractServiceToken, if_neg hv, hred]
        simp
      exact ⟨he, by rw [requireServiceToken, he]⟩

/-- Witness for `extract_never_empty` at the concrete header `"Bearer "`:
removal of the prefix leaves the empty string, extraction yields `none` and
`require` fails with `missingToken`. -/
theorem extract_never_empty_witness :
    extractServiceToken (some "Bearer ") = none
    ∧ requireServiceToken (some "Bearer ") = Except.error ExtractError.missingToken :=
  extract_never_empty.2.2 "Bearer " (by rfl)

/-- Claim C2 as frozen is false on the code: with expected service name
`crm-ext` and a token whose `serviceName` claim is present but equal to the
empty string, the empty string is a substring of `crm-ext` (second
conjunct), so the claim requires acceptance; but the empty string is falsy
in JavaScript, so `validate` takes the missing-claim branch and fails with
`serviceMismatch` (first conjunct). -/
theorem serviceName_empty_claim_rejected :
    validate (some "crm-ext") ⟨7, "e", "r", "service", some ""⟩
      = Except.error AuthError.serviceMismatch
    ∧ jsIncludes "crm-ext" "" = true := by
  exact ⟨by rfl, by rfl⟩

/-- Claim C2 amended: when a non-empty expected service name is configured,
a token carrying a non-empty `serviceName` claim is accepted iff the claim
equals the expected name or one is a case-sensitive substring of the other,
and fails `serviceMismatch` otherwise; a token whose claim is missing or
empty fails `serviceMismatch`; with no configured name the checks are
skipped.  `serviceName="ext"` against expected `"crm-ext"` is accepted and
`serviceName="other"` is rejected. -/
theorem serviceName_check (e c : String) (p : JwtPayload)
    (he : e ≠ "") (hp : p.type = "service") :
    (p.service = some c → c ≠ "" →
      (validate (some e) p = Except.ok (mkPrincipal p)
          ↔ (c = e ∨ jsIncludes c e = true ∨ jsIncludes e c = true))
      ∧ (validate (some e) p = Except.error AuthError.serviceMismatch
          ↔ ¬(c = e ∨ jsIncludes c e = true ∨ jsIncludes e c = true)))
    ∧ ((p.service = none ∨ p.service = some "") →
        validate (some e) p = Except.error AuthError.serviceMismatch)
    ∧ (∀ q : JwtPayload, q.type = "service" → validate none q = Except.ok (mkPrincipal q))
    ∧ validate (some "crm-ext") ⟨7, "e", "r", "service", some "ext"⟩
        = Except.ok (mkPrincipal ⟨7, "e", "r", "service", some "ext"⟩)
    ∧ validate (some "crm-ext") ⟨7, "e", "r", "service", some "other"⟩
        = Except.error AuthError.serviceMismatch := by
  refine ⟨?_, ?_, ?_, by rfl, by rfl⟩
  · intro hc hcne
    have htr : (truthyS (some e) && truthyS p.service) = true := by
      rw [hc]; simp [truthyS, he, hcne]
    rw [validate, if_neg (by simp [hp]), if_pos htr]
    rw [hc]
    simp only [Option.getD]
    by_cases h1 : c = e
    · rw [if_pos h1]
      constructor
      · simp [h1]
      · constructor
        · intro hcon; exact absurd hcon (by simp)
        · intro hcon; exact absurd (Or.inl h1) hcon
    · rw [if_neg h1]
      by_cases h2 : (jsIncludes c e || jsIncludes e c) = true
      · rw [if_pos h2]
        rw [Bool.or_eq_true] at h2
        constructor
        · simp [h1, h2]
        · constructor
          · intro hcon; exact absurd hcon (by simp)
          · intro hcon
            rcases h2 with h2 | h2
            · exact absurd (Or.inr (Or.inl h2)) hcon
            · exact absurd (Or.inr (Or.inr h2)) hcon
      · rw [if_neg h2]
        rw [Bool.or_eq_true] at h2
        push_neg at h2
        constructor
        · constructor
          · intro hcon; exact absurd hcon (by simp)
          · intro hcon
            rcases hcon with hcon | hcon | hcon
            · exact absurd hcon h1
            · exact absurd hcon (by simpa using h2.1)
            · exact absurd hcon (by simpa using h2.2)
        · simp [h1, h2.1, h2.2]
  · intro hmiss
    have htr : (truthyS (some e) && truthyS p.service) = false := by
      rcases hmiss with hmiss | hmiss <;> rw [hmiss] <;> simp [truthyS]
    rw [validate, if_neg (by simp [hp]), if_neg (by simp [htr]),
      if_pos (by simp [truthyS, he])]
  · intro q hq
    rw [validate, if_neg (by simp [hq])]
    simp [truthyS]

/-- Witness for `serviceName_check` at the concrete inputs of the claim:
expected name `crm-ext`, token claim `ext` is accepted (substring rule). -/
theorem serviceName_check_witness :
    validate (some "crm-ext") ⟨7, "e", "r", "service", some "ext"⟩
      = Except.ok (mkPrincipal ⟨7, "e", "r", "service", some "ext"⟩) :=
  (serviceName_check "crm-ext" "ext" ⟨7, "e", "r", "service", some "ext"⟩
    (by decide) rfl).2.2.2.1

/-- Claim C3: `JwtStrategy.validate` fails with `wrongType` on every decoded
payload whose `type` claim differs from `service` (independently of the
signature, which `validate` never consults); a validly-signed token with a
wrong `type` also fails `wrongType` through the full pipeline; and the full
pipeline (signature check, `validate`, `JwtAuthGuard.handleRequest`) never
returns a principal whose `type` differs from `service`. -/
theorem wrong_type_rejected :
    (∀ cfg p, p.type ≠ "service" → validate cfg p = Except.error AuthError.wrongType)
    ∧ (∀ cfg p, p.type ≠ "service" →
        authenticate cfg true p = Except.error AuthError.wrongType)
    ∧ (∀ cfg sigOk p u, authenticate cfg sigOk p = Except.ok u → u.type = "service") := by
  have hv : ∀ cfg p, p.type ≠ "service" → validate cfg p = Except.error AuthError.wrongType := by
    intro cfg p hp
    rw [validate, if_pos hp]
  have hok : ∀ cfg p u, validate cfg p = Except.ok u → u.type = p.type := by
    intro cfg p u hu
    rw [validate] at hu
    by_cases h1 : p.type ≠ "service"
    · rw [if_pos h1] at hu; exact absurd hu (by simp)
    · rw [if_neg h1] at hu
      by_cases h2 : (truthyS cfg && truthyS p.service) = true
      · rw [if_pos h2] at hu
        by_cases h3 : p.service.getD "" = cfg.getD ""
        · rw [if_pos h3] at hu
          rw [← Except.ok.inj hu]; rfl
        · rw [if_neg h3] at hu
          by_cases h4 : (jsIncludes (p.service.getD "") (cfg.getD "")
              || jsIncludes (cfg.getD "") (p.service.getD "")) = true
          · rw [if_pos h4] at hu
            rw [← Except.ok.inj hu]; rfl
          · rw [if_neg h4] at hu; exact absurd hu (by simp)
      · rw [if_neg h2] at hu
        by_cases h5 : truthyS cfg = true
        · rw [if_pos h5] at hu; exact absurd hu (by simp)
        · rw [if_neg h5] at hu
          rw [← Except.ok.inj hu]; rfl
  refine ⟨hv, ?_, ?_⟩
  · intro cfg p hp
    have hdef : authenticate cfg true p = (match validate cfg p with
        | Except.error e => (Except.error e : Except AuthError Principal)
        | Except.ok v => if v.type ≠ "service" then Except.error AuthError.wrongType
            else Except.ok v) := rfl
    rw [hdef, hv cfg p hp]
  · intro cfg sigOk p u hu
    cases sigOk with
    | false =>
      exact absurd (show (Except.error AuthError.signatureInvalid : Except AuthError Principal)
        = Except.ok u from hu) (by simp)
    | true =>
      have hu2 : (match validate cfg p with
          | Except.error e => (Except.error e : Except AuthError Principal)
          | Except.ok v => if v.type ≠ "service" then Except.error AuthError.wrongType
              else Except.ok v) = Except.ok u := hu
      cases hx : validate cfg p with
      | error e => rw [hx] at hu2; exact absurd hu2 (by simp)
      | ok v =>
        rw [hx] at hu2
        simp only at hu2
        by_cases hty : v.type ≠ "service"
        · rw [if_pos hty] at hu2; exact absurd hu2 (by simp)
        · rw [if_neg hty] at hu2
          rw [← Except.ok.inj hu2]
          exact not_ne_iff.mp hty

/-- Witness for `wrong_type_rejected`: a payload with `type = "user"` fails
with `wrongType`, and the principal produced for a well-formed service
payload has `type = "service"`. -/
theorem wrong_type_rejected_witness :
    validate none ⟨1, "e", "r", "user", none⟩ = Except.error AuthError.wrongType
    ∧ (mkPrincipal ⟨1, "e", "r", "service", none⟩).type = "service" :=
  ⟨wrong_type_rejected.1 none ⟨1, "e", "r", "user", none⟩ (by decide),
   wrong_type_rejected.2.2 none true ⟨1, "e", "r", "service", none⟩
     (mkPrincipal ⟨1, "e", "r", "service", none⟩) (by rfl)⟩

/-- Claim C4: with a (truthy) pre-provisioned `JWT_PUBLIC_KEY`, loading the
key performs no remote fetch, returns the normalization of the configured
value and caches it; once cached, every later load returns it unchanged
with no fetch regardless of elapsed time (non-expiring).  The final
conjunct exhibits the normalization on a representative quoted single-line
key: quotes stripped, newline after the header and before the footer, the
128-character body wrapped at 64 characters, and the doubled newline
produced by wrapping collapsed. -/
theorem env_key_no_fetch (k : String) (hk : k ≠ "") (urlConfigured : Bool)
    (now : Nat) (pk : PKState) (fetchResult : Option String) :
    loadPublicKeySeq (some k) urlConfigured now ⟨none⟩ pk fetchResult
      = (Except.ok (normalizeKey k), JCState.mk (some (normalizeKey k)), pk, false)
    ∧ (∀ urlC2 now2 pk2 fr2,
        loadPublicKeySeq (some k) urlC2 now2 ⟨some (normalizeKey k)⟩ pk2 fr2
          = (Except.ok (normalizeKey k), JCState.mk (some (normalizeKey k)), pk2, false))
    ∧ normalizeKey ("\"-----BEGIN PUBLIC KEY----- " ++ a64 ++ a64
          ++ " -----END PUBLIC KEY-----\"")
        = ("-----BEGIN PUBLIC KEY-----\n" ++ a64 ++ "\n" ++ a64
          ++ "\n-----END PUBLIC KEY-----") := by
  refine ⟨?_, ?_, by decide⟩
  · simp [loadPublicKeySeq, hk]
  · intro urlC2 now2 pk2 fr2
    rfl

/-- Witness for `env_key_no_fetch` at the concrete configured key `"X"`. -/
theorem env_key_no_fetch_witness :
    loadPublicKeySeq (some "X") true 0 ⟨none⟩ ⟨none, 0⟩ none
      = (Except.ok (normalizeKey "X"), JCState.mk (some (normalizeKey "X")), ⟨none, 0⟩, false) :=
  (env_key_no_fetch "X" (by decide) true 0 ⟨none, 0⟩ none).1

/-- Claim C5 as frozen is false on the code: here the validation path
obtains the verification key while the cached key is two hours old (twice
the TTL window), yet no fresh remote fetch is performed (final component
`false`) and the stale key is returned — `JwtConfigService.loadPublicKey`
serves its own cache with no TTL check, even though a fresh key `NEWKEY`
would be available. -/
theorem validation_key_not_refreshed_after_ttl :
    loadPublicKeySeq none true 7200000 ⟨some "OLDKEY"⟩ ⟨some "OLDKEY", 0⟩ (some "NEWKEY")
      = (Except.ok "OLDKEY", JCState.mk (some "OLDKEY"), PKState.mk (some "OLDKEY") 0, false)
    ∧ cacheTimeout ≤ 7200000 - 0 :=
  ⟨rfl, by decide⟩

/-- Claim C5 amended: the TTL logic lives in `PublicKeyService.getPublicKey`
alone — it returns the cached key without a fetch only while the key is
younger than `cacheTimeout`, and on a missing or expired cache performs a
fresh fetch, caching the result with a fresh timestamp; but the validation
path (`JwtConfigService.loadPublicKey`) returns its own cached key with no
fetch and no TTL check once any key has been loaded. -/
theorem getPublicKey_ttl (now : Nat) (fr : Option String) (s : PKState) :
    (∀ k, s.cachedPublicKey = some k → now - s.lastFetchTime < cacheTimeout →
      getPublicKey true now fr s = (Except.ok k, s, false))
    ∧ ((s.cachedPublicKey = none ∨ cacheTimeout ≤ now - s.lastFetchTime) →
        ((getPublicKey true now fr s).2.2 = true
          ∧ ∀ k2, fr = some k2 →
            getPublicKey true now fr s = (Except.ok k2, PKState.mk (some k2) now, true)))
    ∧ (∀ k env fr2, loadPublicKeySeq env true now (JCState.mk (some k)) s fr2
        = (Except.ok k, JCState.mk (some k), s, false)) := by
  refine ⟨?_, ?_, ?_⟩
  · intro k hk hlt
    rw [getPublicKey, hk]
    simp [hlt]
  · intro hor
    have heq : getPublicKey true now fr s
        = match s.cachedPublicKey with
          | some k =>
            if now - s.lastFetchTime < cacheTimeout then (Except.ok k, s, false)
            else getPublicKeyFetch true now fr s
          | none => getPublicKeyFetch true now fr s := rfl
    have hfetch : getPublicKey true now fr s = getPublicKeyFetch true now fr s := by
      cases hc : s.cachedPublicKey with
      | none => rw [heq, hc]
      | some k =>
        rcases hor with hor | hor
        · rw [hc] at hor; exact absurd hor (by simp)
        · rw [heq, hc]
          exact if_neg (not_lt.mpr hor)
    constructor
    · rw [hfetch]
      cases fr with
      | none => rfl
      | some k2 => rfl
    · intro k2 hk2
      rw [hfetch, hk2]
      rfl
  · intro k env fr2
    rfl

/-- Witness for `getPublicKey_ttl`: a 10ms-old cached key is returned with
no fetch; at exactly the TTL boundary a fresh fetch happens and the new key
replaces the old one with a fresh timestamp. -/
theorem getPublicKey_ttl_witness :
    getPublicKey true 10 none ⟨some "OLD", 0⟩ = (Except.ok "OLD", ⟨some "OLD", 0⟩, false)
    ∧ getPublicKey true 3600000 (some "NEW") ⟨some "OLD", 0⟩
        = (Except.ok "NEW", PKState.mk (some "NEW") 3600000, true) :=
  ⟨(getPublicKey_ttl 10 none ⟨some "OLD", 0⟩).1 "OLD" rfl (by decide),
   ((getPublicKey_ttl 3600000 (some "NEW") ⟨some "OLD", 0⟩).2.1 (Or.inr (by decide))).2
     "NEW" rfl⟩

theorem firstTruthyS_ne_empty (L : List (Option String)) (l : String)
    (h : firstTruthyS L = some l) : l ≠ "" := by
  induction L with
  | nil => simp [firstTruthyS] at h
  | cons o rest ih =>
    rw [firstTruthyS] at h
    by_cases ht : truthyS o = true
    · rw [if_pos ht] at h
      rw [h] at ht
      simpa [truthyS] using ht
    · rw [if_neg ht] at h
      exact ih h

theorem mapGet_set_self (m : List (Int × String)) (k : Int) (v : String) :
    mapGet (mapSet m k v) k = some v := by
  simp [mapGet, mapSet, List.find?]

/-- Claim C7 as frozen is false on the code: for `subjectId = 1`, the first
`getUserLogin` call succeeds (it resolves the login `x` from a profile
whose own `id` is `2`), but it caches under the profile id `2`, not under
the subjectId `1`; a second call with the same `subjectId = 1` misses the
cache and performs another remote profile fetch (final component `true`,
second conjunct), so two sequential calls perform two fetches, not one. -/
theorem resolveLogin_profile_id_mismatch :
    getUserLogin [] "t" (some 1) none
        (some ⟨200, some ⟨none, some "x", none, none, some 2⟩⟩)
      = (some "x", [(2, "x")], true)
    ∧ getUserLogin [(2, "x")] "t" (some 1) none
        (some ⟨200, some ⟨none, some "x", none, none, some 2⟩⟩)
      = (some "x", [(2, "x")], true) :=
  ⟨rfl, rfl⟩

/-- Claim C7 amended: the login cache is keyed by the own `id` field of the
fetched profile.  When the first successful resolution comes from a profile
whose `id` equals the (nonzero) subjectId — the intended situation — a
subsequent call with the same subjectId is served from the cache with no
remote fetch, so the two sequential calls perform exactly one fetch; a
profile reporting a different `id` does not populate the entry for this
subjectId. -/
theorem resolveLogin_cache_roundtrip (st : List (Int × String)) (tok tok2 : String)
    (u : Int) (e e2 : Option String) (d : ProfileData) (l : String) (fo2 : Option MainResp)
    (hu : u ≠ 0) (hmiss : mapGet st u = none) (hl : profileLogin d = some l)
    (hid : d.id = some u) :
    getUserLogin st tok (some u) e (some ⟨200, some d⟩) = (some l, mapSet st u l, true)
    ∧ getUserLogin (mapSet st u l) tok2 (some u) e2 fo2 = (some l, mapSet st u l, false) := by
  constructor
  · simp [getUserLogin, hu, hmiss, hl, hid]
  · have hlne : l ≠ "" := firstTruthyS_ne_empty _ l hl
    simp [getUserLogin, hu, mapGet_set_self, hlne]

/-- Witness for `resolveLogin_cache_roundtrip`: profile `id = 5` matches
subjectId 5; the first call fetches and caches, the second is served from
the cache with no fetch. -/
theorem resolveLogin_cache_roundtrip_witness :
    getUserLogin [] "t" (some 5) none (some ⟨200, some ⟨some "log", none, none, none, some 5⟩⟩)
      = (some "log", mapSet [] 5 "log", true)
    ∧ getUserLogin (mapSet [] 5 "log") "t2" (some 5) none none
      = (some "log", mapSet [] 5 "log", false) :=
  resolveLogin_cache_roundtrip [] "t" "t2" 5 none none
    ⟨some "log", none, none, none, some 5⟩ "log" none
    (by decide) rfl rfl rfl

/-- Claim C8 as frozen is false on the code in two truthiness corner cases:
with `subjectId = 0` and a failing fetch, the supplied email is returned
but nothing is cached (`if (userId)` is falsy at `0`), where the claim
requires caching keyed by the subjectId; and with the supplied email equal
to the empty string, resolution fails (`null`) instead of returning the
supplied email (`if (email)` is falsy at `""`). -/
theorem resolveLogin_fallback_truthiness :
    getUserLogin [] "t" (some 0) (some "a@b.com") none = (some "a@b.com", [], true)
    ∧ getUserLogin [] "t" (some 1) (some "") none = (none, [], true) :=
  ⟨rfl, rfl⟩

/-- Claim C8 amended: if the remote profile fetch fails and a non-empty
email argument was supplied, `getUserLogin` returns that email, caching it
keyed by the subjectId when the subjectId is nonzero (JavaScript
truthiness); if the fetch fails and no email was supplied, it fails
(returns `null`) and caches nothing. -/
theorem resolveLogin_fetch_fail (st : List (Int × String)) (tok : String)
    (u : Int) (m : String) (hu : u ≠ 0) (hm : m ≠ "") (hmiss : mapGet st u = none) :
    getUserLogin st tok (some u) (some m) none = (some m, mapSet st u m, true)
    ∧ getUserLogin st tok (some u) none none = (none, st, true) := by
  constructor
  · simp [getUserLogin, hu, hm, hmiss]
  · simp [getUserLogin, hu, hmiss]

/-- Witness for `resolveLogin_fetch_fail` at subjectId 1 and email
`a@b.com`. -/
theorem resolveLogin_fetch_fail_witness :
    getUserLogin [] "t" (some 1) (some "a@b.com") none
      = (some "a@b.com", mapSet [] 1 "a@b.com", true)
    ∧ getUserLogin [] "t" (some 1) none none = (none, [], true) :=
  resolveLogin_fetch_fail [] "t" 1 "a@b.com" (by decide) (by decide) rfl

/-- Claim C9 as frozen is false on the code: the exchange of `code="C"`,
`redirectUri="https://x/callback"` against issuer response
`{data:{serviceToken:"T", userId:42, serviceName:"svc"}}` does yield exactly
`{serviceToken:"T", subjectId:42, serviceName:"svc"}` (first conjunct, the
true part of the claim), but the coordinator persists the token: after the
result is returned, the process-wide `MainServerClientService` singleton
holds `some "T"` (it was `setToken`-ed on line 172 of part_010), which is
not `none` (second conjunct) — process-wide state does retain the token. -/
theorem exchange_token_persisted :
    handleCallback none "C" "https://x/callback" (some ⟨some ⟨"T", 42, "svc"⟩⟩)
      = (some ⟨"T", 42, "svc"⟩, some "T")
    ∧ (some "T" : Option String) ≠ none :=
  ⟨rfl, by decide⟩

/-- Claim C9 amended: a successful exchange yields exactly
`{serviceToken, subjectId, serviceName}` from the issuer response, and the
coordinator stores that token in the process-wide
`MainServerClientService` singleton (via `setToken`) for use by later
requests; a failed exchange throws and leaves the stored token unchanged. -/
theorem exchange_result_and_stored_token (ct : Option String) (c ru t : String)
    (uid : Int) (sn : String) (ht : t ≠ "") :
    handleCallback ct c ru (some ⟨some ⟨t, uid, sn⟩⟩) = (some ⟨t, uid, sn⟩, some t)
    ∧ handleCallback ct c ru none = (none, ct) := by
  constructor
  · simp [handleCallback, ht]
  · rfl

/-- Witness for `exchange_result_and_stored_token` at the concrete exchange
of the claim. -/
theorem exchange_result_and_stored_token_witness :
    handleCallback none "C" "https://x/callback" (some ⟨some ⟨"T", 42, "svc"⟩⟩)
      = (some ⟨"T", 42, "svc"⟩, some "T")
    ∧ handleCallback none "C" "https://x/callback" none = (none, none) :=
  exchange_result_and_stored_token none "C" "https://x/callback" "T" 42 "svc" (by decide)

theorem kinv_init (kVal : String) : KInv kVal initK := by
  refine ⟨Or.inl rfl, fun _ => rfl, by simp [initK], ?_⟩
  intro i k h
  simp [initK] at h

theorem kinv_step (kVal : String) (s t : KState) (hs : KStep kVal s t)
    (hi : KInv kVal s) : KInv kVal t := by
  obtain ⟨pkOk, loadPk, fc, doneOk⟩ := hi
  cases hs with
  | startHit i k hidle hpk =>
    refine ⟨pkOk, loadPk, fc, ?_⟩
    intro j k2 hj
    have hj2 : Function.update s.callers i (CStatus.done k) j = CStatus.done k2 := hj
    by_cases hji : j = i
    · subst hji
      rw [Function.update_same] at hj2
      have hkk : k = k2 := by injection hj2
      have hkv : k = kVal := by
        rw [hpk] at pkOk
        rcases pkOk with h | h
        · exact absurd h (by simp)
        · injection h
      have hpk2 : s.publicKey = some kVal := by rw [hpk, hkv]
      exact ⟨hkk ▸ hkv, hpk2⟩
    · rw [Function.update_noteq hji] at hj2
      exact doneOk j k2 hj2
  | startAwait i hidle hpk hld =>
    refine ⟨pkOk, loadPk, fc, ?_⟩
    intro j k2 hj
    have hj2 : Function.update s.callers i CStatus.waiting j = CStatus.done k2 := hj
    by_cases hji : j = i
    · subst hji
      rw [Function.update_same] at hj2
      exact absurd hj2 (by simp)
    · rw [Function.update_noteq hji] at hj2
      exact doneOk j k2 hj2
  | startFetch i hidle hpk hld =>
    have fc0 : s.fetchCount = 0 := by
      rw [fc, hld, hpk]; simp
    refine ⟨Or.inl hpk, fun _ => hpk, ?_, ?_⟩
    · show s.fetchCount + 1 = if ((true : Bool) = true ∨ ¬ s.publicKey = none) then 1 else 0
      rw [fc0, if_pos (Or.inl rfl)]
    · intro j k2 hj
      have hj2 : Function.update s.callers i CStatus.waiting j = CStatus.done k2 := hj
      by_cases hji : j = i
      · subst hji
        rw [Function.update_same] at hj2
        exact absurd hj2 (by simp)
      · rw [Function.update_noteq hji] at hj2
        obtain ⟨_, hpk2⟩ := doneOk j k2 hj2
        rw [hpk] at hpk2
        exact absurd hpk2 (by simp)
  | resolve hld =>
    have hpk : s.publicKey = none := loadPk hld
    have fc1 : s.fetchCount = 1 := by
      rw [fc, hld]; simp
    refine ⟨Or.inr rfl, fun hf => absurd hf (by simp), ?_, ?_⟩
    · show s.fetchCount
        = if ((false : Bool) = true ∨ ¬ (some kVal : Option String) = none) then 1 else 0
      rw [fc1, if_pos (Or.inr (by simp))]
    · intro j k2 hj
      have hj2 : s.callers j = CStatus.done k2 := hj
      obtain ⟨hk, hpk2⟩ := doneOk j k2 hj2
      rw [hpk] at hpk2
      exact absurd hpk2 (by simp)
  | wake i k hwait hpk =>
    refine ⟨pkOk, loadPk, fc, ?_⟩
    intro j k2 hj
    have hj2 : Function.update s.callers i (CStatus.done k) j = CStatus.done k2 := hj
    by_cases hji : j = i
    · subst hji
      rw [Function.update_same] at hj2
      have hkk : k = k2 := by injection hj2
      have hkv : k = kVal := by
        rw [hpk] at pkOk
        rcases pkOk with h | h
        · exact absurd h (by simp)
        · injection h
      have hpk2 : s.publicKey = some kVal := by rw [hpk, hkv]
      exact ⟨hkk ▸ hkv, hpk2⟩
    · rw [Function.update_noteq hji] at hj2
      exact doneOk j k2 hj2

theorem kinv_reach (kVal : String) (s : KState) (h : KReach kVal s) : KInv kVal s := by
  induction h with
  | init => exact kinv_init kVal
  | step h1 h2 ih => exact kinv_step kVal _ _ h2 ih

/-- Claim C1: in every state reachable from the empty-cache initial state by
any interleaving of concurrent `loadPublicKey` callers (with the underlying
fetch succeeding with `kVal`), at most one outbound key fetch has ever been
started — so at most one is in flight at any time and a caller arriving
during a fetch awaits the shared pending promise rather than starting a
second fetch — and every caller that has completed obtained exactly the key
`kVal`, with exactly one outbound fetch having occurred. -/
theorem loadPublicKey_single_flight (kVal : String) (s : KState) (h : KReach kVal s) :
    s.fetchCount ≤ 1
    ∧ (∀ i k, s.callers i = CStatus.done k → (k = kVal ∧ s.fetchCount = 1)) := by
  obtain ⟨pkOk, loadPk, fc, doneOk⟩ := kinv_reach kVal s h
  constructor
  · rw [fc]; split <;> omega
  · intro i k hd
    obtain ⟨hk, hpk⟩ := doneOk i k hd
    refine ⟨hk, ?_⟩
    rw [fc, if_pos]
    right
    rw [hpk]
    simp

def ks1 : KState :=
  { initK with
    loading := true
    fetchCount := initK.fetchCount + 1
    callers := Function.update initK.callers 0 CStatus.waiting }

def ks2 : KState := { ks1 with callers := Function.update ks1.callers 1 CStatus.waiting }

def ks3 : KState := { ks2 with loading := false, publicKey := some "K" }

def ks4 : KState := { ks3 with callers := Function.update ks3.callers 0 (CStatus.done "K") }

def ks5 : KState := { ks4 with callers := Function.update ks4.callers 1 (CStatus.done "K") }

theorem ks5_reach : KReach "K" ks5 :=
  KReach.step
    (KReach.step
      (KReach.step
        (KReach.step
          (KReach.step KReach.init (KStep.startFetch initK 0 rfl rfl rfl))
          (KStep.startAwait ks1 1 (by decide) rfl rfl))
        (KStep.resolve ks2 rfl))
      (KStep.wake ks3 0 "K" (by decide) rfl))
    (KStep.wake ks4 1 "K" (by decide) rfl)

/-- Witness for `loadPublicKey_single_flight`: a concrete two-caller
interleaving — caller 0 starts the single fetch, caller 1 arrives during it
and awaits, the fetch resolves with `K`, both callers complete — reaches a
state with both callers done and exactly one fetch performed. -/
theorem loadPublicKey_single_flight_witness :
    ks5.fetchCount ≤ 1
    ∧ ks5.callers 0 = CStatus.done "K"
    ∧ ks5.callers 1 = CStatus.done "K"
    ∧ ks5.fetchCount = 1 :=
  ⟨(loadPublicKey_single_flight "K" ks5 ks5_reach).1,
   by decide,
   by decide,
   ((loadPublicKey_single_flight "K" ks5 ks5_reach).2 0 "K" (by decide)).2⟩

end CrmAuth
